import Mathlib

/-! Shallow embedding of the cross-frame coordinate registry and spatial event
router implemented in src/app/index.js (the frame-details and follow-response
handlers, findRelevantSubFrame, the action dispatch and translateMouseEvent),
together with theorems about its behaviour.  JavaScript records whose nine
geometry fields are always assigned as one block (index.js lines 1727-1743)
are modelled with an optional Geom payload; JavaScript undefined/falsy
coalescing (x || 0, NaN comparison semantics, 0 || null) is made explicit
through Option values and dedicated helper functions. -/

namespace Vieb

/-- The geometry block the frame-details handler writes into a matched child
record (index.js lines 1727-1743).  All nine fields are assigned together. -/
structure Geom where
  x : Int
  y : Int
  width : Int
  height : Int
  usableWidth : Int
  usableHeight : Int
  pagex : Int
  pagey : Int
  parent : String
deriving DecidableEq

/-- One entry of the frameInfo store.  id and url are set for every record
(lines 1722-1723); the geometry block is present only once some parent has
described this frame by URL; absX/absY are the scratch fields written by
findRelevantSubFrame (lines 1807-1812). -/
structure FrameRecord where
  id : String
  url : String
  geom : Option Geom
  absX : Option Int
  absY : Option Int
deriving DecidableEq

/-- The frameInfo object: a string-keyed store with insertion order, modelled
as an association list with unique keys. -/
abbrev Registry := List (String × FrameRecord)

/-- Property read frameInfo[k]: first entry with the given key. -/
def jsLookup (reg : Registry) (k : String) : Option FrameRecord :=
  (reg.find? (fun p => p.1 == k)).map (fun p => p.2)

/-- Property write frameInfo[k] = v: replace the entry in place if the key
exists, otherwise append (insertion order of a JS object). -/
def setRec : Registry → String → FrameRecord → Registry
  | [], k, v => [(k, v)]
  | (a, b) :: t, k, v => if a == k then (k, v) :: t else (a, b) :: setRec t k v

/-- Object.keys(frameInfo). -/
def keysOf (reg : Registry) : List String := reg.map (fun p => p.1)

/-- JavaScript info.x || 0: a record without a geometry block contributes 0. -/
def xOr0 (r : FrameRecord) : Int :=
  match r.geom with
  | some g => g.x
  | none => 0

/-- JavaScript info.y || 0. -/
def yOr0 (r : FrameRecord) : Int :=
  match r.geom with
  | some g => g.y
  | none => 0

/-- info.width as a JS value: undefined when no geometry block exists. -/
def widthO (r : FrameRecord) : Option Int := r.geom.map (fun g => g.width)

/-- info.height as a JS value. -/
def heightO (r : FrameRecord) : Option Int := r.geom.map (fun g => g.height)

/-- info?.parent as used in a truthiness test: undefined when there is no
geometry block, falsy when the stored parent id is the empty string. -/
def parentKey (r : FrameRecord) : Option String :=
  match r.geom with
  | some g => if g.parent == "" then none else some g.parent
  | none => none

/-- A field of info?.geom viewed as a possibly-undefined JS number. -/
def infoGeomField (info : Option FrameRecord) (f : Geom → Int) : Option Int :=
  info.bind (fun r => r.geom.map f)

/-- One sub-report of a frame-details message: child URL plus the child rect
as seen by the reporting parent. -/
structure SubframeReport where
  url : String
  x : Int
  y : Int
  width : Int
  height : Int
deriving DecidableEq

/-- A frame-details message: the reporter's URL, its own viewport size, the
root page scroll offset, and the sub-reports. -/
structure FrameDetails where
  url : String
  width : Int
  height : Int
  pagex : Int
  pagey : Int
  subframes : List SubframeReport
deriving DecidableEq

/-- The geometry block stored for a URL-matched child record
(index.js lines 1727-1743): usable sizes subtract any positive overflow of
the child rect past the reporting parent's viewport. -/
def mkGeom (parentId : String) (d : FrameDetails) (sf : SubframeReport) : Geom :=
  { x := sf.x
    y := sf.y
    width := sf.width
    height := sf.height
    usableWidth :=
      if sf.x + sf.width - d.width > 0 then sf.width - (sf.x + sf.width - d.width)
      else sf.width
    usableHeight :=
      if sf.y + sf.height - d.height > 0 then sf.height - (sf.y + sf.height - d.height)
      else sf.height
    pagex := d.pagex
    pagey := d.pagey
    parent := parentId }

/-- The frame-details handler (index.js lines 1711-1747): upsert the
reporter's id/url, then for every sub-report update every record whose url
matches and whose id differs from the reporter. -/
def frameDetails (reg : Registry) (frameId : String) (d : FrameDetails) : Registry :=
  let reg0 :=
    match jsLookup reg frameId with
    | some r => setRec reg frameId { r with id := frameId, url := d.url }
    | none =>
        reg ++ [(frameId, { id := frameId, url := d.url, geom := none,
                            absX := none, absY := none })]
  d.subframes.foldl
    (fun r sf =>
      (keysOf r).foldl
        (fun r2 id =>
          match jsLookup r2 id with
          | some rv =>
              if rv.url == sf.url && id != frameId then
                setRec r2 id { rv with geom := some (mkGeom frameId d sf) }
              else r2
          | none => r2)
        r)
    reg0

/-- The parent-chain walk of the follow-response handler (index.js lines
1760-1765) and of translateMouseEvent (lines 1942-1948): repeatedly add the
parent's local origin (or 0 when the parent record is missing) until the
parent reference is falsy.  The fuel argument bounds the number of loop
iterations; none means the walk did not finish within the given fuel (the
JavaScript loop would diverge on a cyclic chain). -/
def resolveLoop (reg : Registry) : Nat → Int → Int → Option String → Option (Int × Int)
  | _, fx, fy, none => some (fx, fy)
  | 0, _, _, some _ => none
  | n + 1, fx, fy, some p =>
    match jsLookup reg p with
    | none => some (fx, fy)
    | some pi => resolveLoop reg n (fx + xOr0 pi) (fy + yOr0 pi) (parentKey pi)

/-- The absolute-origin resolver used by follow-response (lines 1756-1765)
and translateMouseEvent (lines 1937-1948): the frame's own local origin plus
the chain of ancestor origins, degrading to 0 for missing records. -/
def resolveFR (reg : Registry) (fuel : Nat) (frameId : String) : Option (Int × Int) :=
  match jsLookup reg frameId with
  | none => some (0, 0)
  | some info => resolveLoop reg fuel (xOr0 info) (yOr0 info) (parentKey info)

/-- A raw link as reported by a frame during follow mode: its frame-local
position (other payload fields are irrelevant to the aggregation logic). -/
structure RawLink where
  x : Int
  y : Int
deriving DecidableEq

/-- A processed link entry as built by the follow-response handler
(index.js lines 1766-1781). -/
structure LinkEntry where
  frameAbsX : Int
  frameAbsY : Int
  frameHeight : Option Int
  frameId : String
  frameUsableHeight : Option Int
  frameUsableWidth : Option Int
  frameWidth : Option Int
  frameX : Option Int
  frameY : Option Int
  x : Int
  xInFrame : Int
  y : Int
  yInFrame : Int
deriving DecidableEq

/-- The entry constructed for each raw link (lines 1766-1780), given the
reporting frame's record and resolved absolute origin (fx, fy). -/
def mkLinkEntry (info : Option FrameRecord) (frameId : String) (fx fy : Int)
    (l : RawLink) : LinkEntry :=
  { frameAbsX := fx
    frameAbsY := fy
    frameHeight := infoGeomField info (fun g => g.height)
    frameId := frameId
    frameUsableHeight := infoGeomField info (fun g => g.usableHeight)
    frameUsableWidth := infoGeomField info (fun g => g.usableWidth)
    frameWidth := infoGeomField info (fun g => g.width)
    frameX := infoGeomField info (fun g => g.x)
    frameY := infoGeomField info (fun g => g.y)
    x := l.x + fx
    xInFrame := l.x
    y := l.y + fy
    yInFrame := l.y }

/-- The clipping filter (lines 1781-1787): a falsy (undefined or zero) usable
dimension keeps every link; otherwise the local position must be strictly
below both usable dimensions. -/
def keepLink (l : LinkEntry) : Bool :=
  match l.frameUsableHeight, l.frameUsableWidth with
  | some uh, some uw =>
      if uh == 0 || uw == 0 then true
      else decide (l.yInFrame < uh) && decide (l.xInFrame < uw)
  | _, _ => true

/-- The per-frame part of the follow-response handler (lines 1756-1787):
resolve the frame's absolute origin, translate every raw link, apply the
clipping filter.  none when the resolver ran out of fuel. -/
def processLinks (reg : Registry) (fuel : Nat) (frameId : String)
    (raw : List RawLink) : Option (List LinkEntry) :=
  (resolveFR reg fuel frameId).map (fun fxy =>
    (raw.map (mkLinkEntry (jsLookup reg frameId) frameId fxy.1 fxy.2)).filter keepLink)

/-- The global-list update of the follow-response handler (lines 1788-1793):
drop prior entries owned by the reporting frame or by frames no longer in the
live frame tree, then append the new batch. -/
def mergeLinks (allFramesIds : List String) (frameId : String)
    (frameLinks : List LinkEntry) (allLinks : List LinkEntry) : List LinkEntry :=
  (allLinks.filter (fun l => l.frameId != frameId && allFramesIds.contains l.frameId))
    ++ frameLinks

/-- Spec-side keep rule for the amended clipping claim, phrased over the
registry rather than over the constructed entry: when both registered usable
dimensions are present and nonzero, a link is kept exactly when its local
position is strictly below both; otherwise every link is kept. -/
def specKeepRule (reg : Registry) (frameId : String) (l : RawLink) : Bool :=
  match infoGeomField (jsLookup reg frameId) (fun g => g.usableHeight),
        infoGeomField (jsLookup reg frameId) (fun g => g.usableWidth) with
  | some uh, some uw =>
      if uh == 0 || uw == 0 then true
      else decide (l.y < uh) && decide (l.x < uw)
  | _, _ => true

/-- Positional payload of a mouse event as sent by a frame. -/
structure ClickInfo where
  x : Int
  y : Int
  startX : Option Int
  startY : Option Int
  endX : Option Int
  endY : Option Int
deriving DecidableEq

/-- The registry-derived part of the object translateMouseEvent returns
(index.js lines 1967-1986).  The frame-url and webviewId fields are omitted:
they are computed from the live webContents list, which is outside the
registry model. -/
structure MouseOut where
  endX : Option Int
  endY : Option Int
  frameAbsX : Int
  frameAbsY : Int
  frameHeight : Option Int
  frameId : String
  frameWidth : Option Int
  frameX : Option Int
  frameY : Option Int
  startX : Option Int
  startY : Option Int
  x : Int
  xInFrame : Int
  y : Int
  yInFrame : Int
deriving DecidableEq

/-- JavaScript clickInfo?.f + d || null: undefined input propagates (NaN is
falsy), and an exact zero sum is also collapsed to null. -/
def jsShiftOrNull (v : Option Int) (d : Int) : Option Int :=
  match v with
  | none => none
  | some a => if a + d == 0 then none else some (a + d)

/-- translateMouseEvent (index.js lines 1929-1987) restricted to the fields
derived from the registry: resolve the frame's absolute origin and shift all
positional fields by it. -/
def translateMouseEvent (reg : Registry) (fuel : Nat) (frameId : String)
    (c : ClickInfo) : Option MouseOut :=
  (resolveFR reg fuel frameId).map (fun fxy =>
    let info := jsLookup reg frameId
    { endX := jsShiftOrNull c.endX fxy.1
      endY := jsShiftOrNull c.endY fxy.2
      frameAbsX := fxy.1
      frameAbsY := fxy.2
      frameHeight := infoGeomField info (fun g => g.height)
      frameId := frameId
      frameWidth := infoGeomField info (fun g => g.width)
      frameX := infoGeomField info (fun g => g.x)
      frameY := infoGeomField info (fun g => g.y)
      startX := jsShiftOrNull c.startX fxy.1
      startY := jsShiftOrNull c.startY fxy.2
      x := c.x + fxy.1
      xInFrame := c.x
      y := c.y + fxy.2
      yInFrame := c.y })

/-- The string a plain JavaScript object coerces to when used as a property
key.  Line 1813 of index.js executes parent = frameInfo[parent] with parent
bound to a record object, so every loop iteration after the first looks up
this key. -/
def objKey : String := "[object Object]"

/-- The absolute-origin loop of findRelevantSubFrame (index.js lines
1809-1814).  The accumulator starts at the frame's own origin; each iteration
adds the current parent record's origin and then reassigns parent to
frameInfo[parent], i.e. to the objKey lookup, because parent is a record
object rather than an id.  Fuel bounds the iterations; none means the loop
did not finish within the fuel. -/
def hitLoop (reg : Registry) : Nat → Int → Int → Option FrameRecord → Option (Int × Int)
  | _, ax, ay, none => some (ax, ay)
  | 0, _, _, some _ => none
  | n + 1, ax, ay, some p =>
    hitLoop reg n (ax + xOr0 p) (ay + yOr0 p) (jsLookup reg objKey)

/-- The per-frame body of the map in findRelevantSubFrame (lines 1801-1815):
skip records that are absent or have no truthy parent, otherwise compute the
frame's absX/absY via hitLoop and return the record with those fields set. -/
def hitRecordOf (reg : Registry) (fuel : Nat) (f : String) : Option FrameRecord :=
  match jsLookup reg f with
  | none => none
  | some r =>
    match r.geom with
    | none => none
    | some g =>
      if g.parent == "" then none
      else
        (hitLoop reg fuel g.x g.y (jsLookup reg g.parent)).map
          (fun ab => { r with absX := some ab.1, absY := some ab.2 })

/-- The map phase of findRelevantSubFrame threaded through the registry
mutation: each processed frame's record is updated in the store with its
computed absX/absY, and the mutated record is also collected in the output
list.  none when some frame's hitLoop ran out of fuel. -/
def hitScan (fuel : Nat) (reg : Registry) : List String → Option (Registry × List FrameRecord)
  | [] => some (reg, [])
  | f :: rest =>
    match jsLookup reg f with
    | none => hitScan fuel reg rest
    | some r =>
      match r.geom with
      | none => hitScan fuel reg rest
      | some g =>
        if g.parent == "" then hitScan fuel reg rest
        else
          match hitLoop reg fuel g.x g.y (jsLookup reg g.parent) with
          | none => none
          | some ab =>
            match hitScan fuel
                (setRec reg f { r with absX := some ab.1, absY := some ab.2 }) rest with
            | none => none
            | some (reg2, l) =>
              some (reg2, { r with absX := some ab.1, absY := some ab.2 } :: l)

/-- JavaScript a < v for a possibly-undefined a (NaN comparisons are false). -/
def jsLtOI (o : Option Int) (v : Int) : Bool :=
  match o with
  | some a => decide (a < v)
  | none => false

/-- JavaScript a + b > v where a and b may be undefined. -/
def jsAddGtO (a b : Option Int) (v : Int) : Bool :=
  match a, b with
  | some x, some w => decide (v < x + w)
  | _, _ => false

/-- JavaScript a > b where both sides may be undefined. -/
def jsGtO (a b : Option Int) : Bool :=
  match a, b with
  | some x, some w => decide (w < x)
  | _, _ => false

/-- JavaScript a <= b where both sides may be undefined. -/
def jsLeO (a b : Option Int) : Bool :=
  match a, b with
  | some x, some w => decide (x ≤ w)
  | _, _ => false

/-- The candidate test of findRelevantSubFrame (lines 1819-1820): the query
point lies strictly inside the bounds built from the computed absX/absY and
the registered width/height. -/
def candidateB (x y : Int) (r : FrameRecord) : Bool :=
  jsLtOI r.absX x && jsLtOI r.absY y
    && jsAddGtO r.absX (widthO r) x && jsAddGtO r.absY (heightO r) y

/-- The update applied when a frame passes the candidate test (lines
1821-1828): it replaces the current best exactly when the current best is
strictly wider. -/
def pickStep (acc : Option FrameRecord) (info : FrameRecord) : Option FrameRecord :=
  match acc with
  | none => some info
  | some r => if jsGtO (widthO r) (widthO info) then some info else some r

/-- One step of the selection loop (lines 1818-1831): non-candidates leave
the current best unchanged. -/
def selStep (x y : Int) (acc : Option FrameRecord) (info : FrameRecord) :
    Option FrameRecord :=
  if candidateB x y info then pickStep acc info else acc

/-- findRelevantSubFrame (index.js lines 1799-1837): map phase with registry
mutation, then the selection fold.  Returns the mutated registry and the
chosen frame record (none when no candidate contains the point). -/
def findRelevantSubFrame (reg : Registry) (fuel : Nat) (frames : List String)
    (x y : Int) : Option (Registry × Option FrameRecord) :=
  (hitScan fuel reg frames).map (fun rl => (rl.1, rl.2.foldl (selStep x y) none))

/-- Spec-side selection rule: the first list element whose width is less than
or equal to every width in the list (the first narrowest candidate in
enumeration order). -/
def specNarrowestFirst (l : List FrameRecord) : Option FrameRecord :=
  l.find? (fun r => l.all (fun g => jsLeO (widthO r) (widthO g)))

/-- The candidate list of a findRelevantSubFrame call, phrased over the
starting registry: the enumerated frames that get an absolute record,
restricted to those strictly containing the query point. -/
def hitCandidates (reg : Registry) (fuel : Nat) (frames : List String)
    (x y : Int) : List FrameRecord :=
  (frames.filterMap (hitRecordOf reg fuel)).filter (candidateB x y)

/-- The action handler for a selectionRequest with numeric coordinates
(index.js lines 1838-1863): when the start point hits a subframe, the
special-case send transmits both points shifted by the frame's absX/absY and
is then followed by the generic send, which shifts only the first point and
forwards the remaining options untranslated; when no subframe is hit, the
action is broadcast to every frame.  Each message is (target frame id,
coordinate list).  none when the hit-test ran out of fuel or the chosen
record lacks absX/absY (unreachable from hitScan output). -/
def actionMessagesSelection (reg : Registry) (fuel : Nat) (frames : List String)
    (sx sy ex ey : Int) : Option (Registry × List (String × List Int)) :=
  match findRelevantSubFrame reg fuel frames sx sy with
  | none => none
  | some (reg2, none) => some (reg2, frames.map (fun f => (f, [sx, sy, ex, ey])))
  | some (reg2, some sub) =>
    match sub.absX, sub.absY with
    | some ax, some ay =>
      if frames.contains sub.id then
        some (reg2,
          [(sub.id, [sx - ax, sy - ay, ex - ax, ey - ay]),
           (sub.id, [sx - ax, sy - ay, ex, ey])])
      else some (reg2, [])
    | _, _ => none

/-- A record as created for a reporting frame that no parent has described
yet: id and url only (index.js lines 1719-1723). -/
def bareRec (id url : String) : FrameRecord :=
  { id := id, url := url, geom := none, absX := none, absY := none }

/-- Two-frame concrete registry: a root frame and one child at local origin
(10, 20) inside it. -/
def cReg : Registry :=
  [("1-1", bareRec "1-1" "r"),
   ("2-2", { id := "2-2", url := "c",
             geom := some { x := 10, y := 20, width := 300, height := 200,
                            usableWidth := 300, usableHeight := 200,
                            pagex := 0, pagey := 0, parent := "1-1" },
             absX := none, absY := none })]

/-- Enumeration order of the two-frame tree. -/
def cFrames : List String := ["1-1", "2-2"]

/-- The child record of cReg after findRelevantSubFrame wrote its absolute
origin into it. -/
def cRec2m : FrameRecord :=
  { id := "2-2", url := "c",
    geom := some { x := 10, y := 20, width := 300, height := 200,
                   usableWidth := 300, usableHeight := 200,
                   pagex := 0, pagey := 0, parent := "1-1" },
    absX := some 10, absY := some 20 }

/-- The full result of findRelevantSubFrame on cReg at a point inside the
child: mutated registry plus the chosen record. -/
def cOut : Registry × Option FrameRecord :=
  ([("1-1", bareRec "1-1" "r"), ("2-2", cRec2m)], some cRec2m)

/-- Depth-4 concrete registry: root, then frames nested at local origins
(100, 100), (50, 50) and (10, 10). -/
def wReg : Registry :=
  [("1-1", bareRec "1-1" "r"),
   ("2-2", { id := "2-2", url := "b",
             geom := some { x := 100, y := 100, width := 400, height := 400,
                            usableWidth := 400, usableHeight := 400,
                            pagex := 0, pagey := 0, parent := "1-1" },
             absX := none, absY := none }),
   ("3-3", { id := "3-3", url := "c",
             geom := some { x := 50, y := 50, width := 300, height := 300,
                            usableWidth := 300, usableHeight := 300,
                            pagex := 0, pagey := 0, parent := "2-2" },
             absX := none, absY := none }),
   ("4-4", { id := "4-4", url := "d",
             geom := some { x := 10, y := 10, width := 100, height := 100,
                            usableWidth := 100, usableHeight := 100,
                            pagex := 0, pagey := 0, parent := "3-3" },
             absX := none, absY := none })]

/-- Enumeration order of the depth-4 tree. -/
def wFrames : List String := ["1-1", "2-2", "3-3", "4-4"]

/-- Registry whose child frame is fully clipped: registered usable rectangle
is 0 by 0 while the frame itself is 30 by 30 at local origin (7, 9). -/
def clipReg : Registry :=
  [("1-1", bareRec "1-1" "r"),
   ("2-2", { id := "2-2", url := "c",
             geom := some { x := 7, y := 9, width := 30, height := 30,
                            usableWidth := 0, usableHeight := 0,
                            pagex := 0, pagey := 0, parent := "1-1" },
             absX := none, absY := none })]

/-- Three-frame chain used to exercise the resolver recursion: a root, a
parent at (10, 20) and a child at (5, 6). -/
def rReg : Registry :=
  [("r", bareRec "r" "ru"),
   ("p", { id := "p", url := "pu",
           geom := some { x := 10, y := 20, width := 500, height := 500,
                          usableWidth := 500, usableHeight := 500,
                          pagex := 0, pagey := 0, parent := "r" },
           absX := none, absY := none }),
   ("c", { id := "c", url := "cu",
           geom := some { x := 5, y := 6, width := 200, height := 200,
                          usableWidth := 200, usableHeight := 200,
                          pagex := 0, pagey := 0, parent := "p" },
           absX := none, absY := none })]

/-- The child record of rReg. -/
def rRecC : FrameRecord :=
  { id := "c", url := "cu",
    geom := some { x := 5, y := 6, width := 200, height := 200,
                   usableWidth := 200, usableHeight := 200,
                   pagex := 0, pagey := 0, parent := "p" },
    absX := none, absY := none }

/-- Child rect of the overflow scenario of the spec: (100, 50) size 300 by
200. -/
def wSub : SubframeReport := { url := "c", x := 100, y := 50, width := 300, height := 200 }

/-- Parent viewport 350 by 600 around wSub, producing a horizontal overflow
of 50. -/
def wDetails : FrameDetails :=
  { url := "p", width := 350, height := 600, pagex := 0, pagey := 0, subframes := [wSub] }

/-- A concrete mouse event inside the child of cReg, with a drag start, no
start y, and an end point whose translated x is exactly 0. -/
def cClick : ClickInfo :=
  { x := 3, y := 4, startX := some 5, startY := none, endX := some (-10), endY := some 6 }

/-- The translation of cClick by the child frame of cReg (origin (10, 20)):
the end x collapsed to null because the shifted value is exactly 0. -/
def cMouseOut : MouseOut :=
  { endX := none, endY := some 26, frameAbsX := 10, frameAbsY := 20,
    frameHeight := some 200, frameId := "2-2", frameWidth := some 300,
    frameX := some 10, frameY := some 20, startX := some 15, startY := none,
    x := 13, xInFrame := 3, y := 24, yInFrame := 4 }

/-- The innermost record of wReg after findRelevantSubFrame computed its
absX/absY: the walk adds only the immediate parent's origin (10 + 50), while
the full ancestor chain sums to 160. -/
def hit4Rec : FrameRecord :=
  { id := "4-4", url := "d",
    geom := some { x := 10, y := 10, width := 100, height := 100,
                   usableWidth := 100, usableHeight := 100,
                   pagex := 0, pagey := 0, parent := "3-3" },
    absX := some 60, absY := some 60 }

/-- The entry the follow-response handler builds for a link at local (5, 5)
of the fully clipped frame of clipReg. -/
def clipEntry : LinkEntry :=
  { frameAbsX := 7, frameAbsY := 9, frameHeight := some 30, frameId := "2-2",
    frameUsableHeight := some 0, frameUsableWidth := some 0,
    frameWidth := some 30, frameX := some 7, frameY := some 9,
    x := 12, xInFrame := 5, y := 14, yInFrame := 5 }

theorem resolveLoop_shift (reg : Registry) :
    ∀ (n : Nat) (c d fx fy : Int) (p : Option String),
      resolveLoop reg n (c + fx) (d + fy) p =
        (resolveLoop reg n fx fy p).map (fun q => (c + q.1, d + q.2)) := by
  intro n
  induction n with
  | zero =>
    intro c d fx fy p
    cases p <;> simp [resolveLoop]
  | succ m ih =>
    intro c d fx fy p
    cases p with
    | none => simp [resolveLoop]
    | some k =>
      cases h : jsLookup reg k with
      | none => simp [resolveLoop, h]
      | some pi =>
        simp only [resolveLoop, h]
        rw [show c + fx + xOr0 pi = c + (fx + xOr0 pi) from by ring,
            show d + fy + yOr0 pi = d + (fy + yOr0 pi) from by ring]
        exact ih c d (fx + xOr0 pi) (fy + yOr0 pi) (parentKey pi)

/-- C4: for a record R whose parentKey P resolves to v, the resolver yields
v plus R's own local origin; with no truthy parent, or a parent id whose
record is missing, it yields R's own origin; for a missing record it yields
(0, 0) — resolution degrades to the best known partial offset. -/
theorem resolver_parent_recursion :
    (∀ (reg : Registry) (fuel : Nat) (id : String) (R : FrameRecord) (P : String)
        (v : Int × Int), jsLookup reg id = some R → parentKey R = some P →
        resolveFR reg fuel P = some v →
        resolveFR reg (fuel + 1) id = some (v.1 + xOr0 R, v.2 + yOr0 R))
    ∧ (∀ (reg : Registry) (fuel : Nat) (id : String) (R : FrameRecord),
        jsLookup reg id = some R → parentKey R = none →
        resolveFR reg fuel id = some (xOr0 R, yOr0 R))
    ∧ (∀ (reg : Registry) (fuel : Nat) (id : String) (R : FrameRecord) (P : String),
        jsLookup reg id = some R → parentKey R = some P → jsLookup reg P = none →
        resolveFR reg (fuel + 1) id = some (xOr0 R, yOr0 R))
    ∧ (∀ (reg : Registry) (fuel : Nat) (id : String),
        jsLookup reg id = none → resolveFR reg fuel id = some (0, 0)) := by
  refine ⟨?_, ?_, ?_, ?_⟩
  · intro reg fuel id R P v hR hP hres
    cases h : jsLookup reg P with
    | none =>
      simp only [resolveFR, h, Option.some.injEq] at hres
      simp only [resolveFR, hR, hP, resolveLoop, h]
      simp [← hres]
    | some pi =>
      simp only [resolveFR, h] at hres
      simp only [resolveFR, hR, hP, resolveLoop, h]
      rw [resolveLoop_shift reg fuel (xOr0 R) (yOr0 R) (xOr0 pi) (yOr0 pi) (parentKey pi),
          hres]
      simp [Int.add_comm]
  · intro reg fuel id R hR hP
    cases fuel <;> simp only [resolveFR, hR, hP, resolveLoop]
  · intro reg fuel id R P hR hP hPm
    simp only [resolveFR, hR, hP, resolveLoop, hPm]
  · intro reg fuel id h
    simp only [resolveFR, h]

/-- Witness for C4 at the concrete chain rReg: the child resolves to its
parent's resolved origin (10, 20) plus its own local origin. -/
theorem resolver_parent_recursion_witness :
    resolveFR rReg 2 "c" = some ((10 : Int) + xOr0 rRecC, (20 : Int) + yOr0 rRecC) :=
  resolver_parent_recursion.1 rReg 1 "c" rRecC "p" (10, 20)
    (by decide) (by decide) (by decide)

/-- C6: a geometry block produced from non-negative inputs has usable sizes
at most the full sizes; a positive overflow past the parent viewport is
subtracted, a non-positive overflow leaves the full size. -/
theorem record_usable_bounds (pid : String) (d : FrameDetails) (sf : SubframeReport)
    (hx : 0 ≤ sf.x) (hy : 0 ≤ sf.y) (hw : 0 ≤ sf.width) (hh : 0 ≤ sf.height)
    (hdw : 0 ≤ d.width) (hdh : 0 ≤ d.height) :
    (mkGeom pid d sf).usableWidth ≤ (mkGeom pid d sf).width ∧
    (mkGeom pid d sf).usableHeight ≤ (mkGeom pid d sf).height ∧
    (0 < sf.x + sf.width - d.width →
      (mkGeom pid d sf).usableWidth = sf.width - (sf.x + sf.width - d.width)) ∧
    (sf.x + sf.width - d.width ≤ 0 → (mkGeom pid d sf).usableWidth = sf.width) ∧
    (0 < sf.y + sf.height - d.height →
      (mkGeom pid d sf).usableHeight = sf.height - (sf.y + sf.height - d.height)) ∧
    (sf.y + sf.height - d.height ≤ 0 → (mkGeom pid d sf).usableHeight = sf.height) := by
  simp only [mkGeom]
  refine ⟨?_, ?_, ?_, ?_, ?_, ?_⟩ <;> (intros; split <;> omega)

/-- Witness for C6 at the spec scenario: child rect (100, 50, 300, 200) in a
350 by 600 parent viewport gives usableWidth 300 - (100 + 300 - 350) = 250. -/
theorem record_usable_bounds_witness :
    (mkGeom "1-1" wDetails wSub).usableWidth =
      wSub.width - (wSub.x + wSub.width - wDetails.width) :=
  (record_usable_bounds "1-1" wDetails wSub (by decide) (by decide) (by decide)
    (by decide) (by decide) (by decide)).2.2.1 (by decide)

/-- C1: on the depth-4 chain wReg the hit-tester's origin for frame 4-4 is
60 (its own origin plus only the immediate parent's origin: the loop's next
lookup uses a record object as key, so the walk stops), while the resolver
used for links and mouse events walks the whole chain and yields 160. -/
theorem hit_origin_vs_resolver_depth4 :
    (hitRecordOf wReg 5 "4-4").bind (fun r => r.absX) = some 60 ∧
    (resolveFR wReg 5 "4-4").map (fun q => q.1) = some 160 ∧
    (60 : Int) ≠ 160 := by decide

/-- C5: at query point (70, 70) on wReg the hit-tester returns frame 4-4,
whose true window-absolute origin is (160, 160); the point is not strictly
inside the frame's true absolute bounds. -/
theorem hit_test_outside_true_bounds :
    (findRelevantSubFrame wReg 5 wFrames 70 70).map (fun o => o.2) =
      some (some hit4Rec) ∧
    resolveFR wReg 5 "4-4" = some (160, 160) ∧
    ¬ ((160 : Int) < 70 ∧ (160 : Int) < 70) := by decide

/-- C2: a selectionRequest whose start point (15, 25) hits the child of cReg
is sent twice to that frame: once with both points translated by the frame
origin (10, 20), and once more with the end point (30, 40) untranslated —
not exactly once as the dispatch contract states. -/
theorem selection_action_double_send :
    actionMessagesSelection cReg 3 cFrames 15 25 30 40 =
      some (cOut.1, [("2-2", [5, 5, 20, 20]), ("2-2", [5, 5, 30, 40])]) ∧
    [("2-2", [(5 : Int), 5, 20, 20]), ("2-2", [(5 : Int), 5, 30, 40])].length ≠ 1 := by
  decide

/-- C3 counterexample: the clipped frame of clipReg has registered usable
rectangle 0 by 0, the reported link at local (5, 5) lies outside it, yet the
handler keeps the link (a falsy usable dimension disables the filter). -/
theorem clipped_link_kept_zero_usable :
    processLinks clipReg 2 "2-2" [RawLink.mk 5 5] = some [clipEntry] ∧
    ¬ ((5 : Int) < 0) := by decide

theorem map_filter_comm {α : Type _} {β : Type _} (f : α → β) (p : β → Bool) :
    ∀ l : List α, (l.map f).filter p = (l.filter (fun a => p (f a))).map f := by
  intro l
  induction l with
  | nil => rfl
  | cons a t ih => by_cases h : p (f a) <;> simp [h, ih]

theorem keepLink_mk (reg : Registry) (A : String) (fx fy : Int) (l : RawLink) :
    keepLink (mkLinkEntry (jsLookup reg A) A fx fy l) = specKeepRule reg A l := rfl

/-- C3 amended: a reported link is dropped exactly when both registered
usable dimensions are present and nonzero and its local position is not
strictly below both of them; with a missing or zero usable dimension every
link is kept; every kept link's absolute coordinates are its local
coordinates plus the frame's resolved absolute origin. -/
theorem merge_links_clip_amended (reg : Registry) (fuel : Nat) (A : String)
    (raw : List RawLink) (L : List LinkEntry) (fx fy : Int)
    (hres : resolveFR reg fuel A = some (fx, fy))
    (hL : processLinks reg fuel A raw = some L) :
    L = (raw.filter (specKeepRule reg A)).map (mkLinkEntry (jsLookup reg A) A fx fy) ∧
    ∀ e ∈ L, e.x = e.xInFrame + fx ∧ e.y = e.yInFrame + fy := by
  have hL2 : L = (raw.map (mkLinkEntry (jsLookup reg A) A fx fy)).filter keepLink := by
    simp only [processLinks, hres, Option.map_some', Option.some.injEq] at hL
    exact hL.symm
  constructor
  · rw [hL2, map_filter_comm]
    simp only [keepLink_mk]
  · intro e he
    rw [hL2] at he
    simp only [List.mem_filter, List.mem_map] at he
    obtain ⟨⟨l, _, rfl⟩, _⟩ := he
    exact ⟨rfl, rfl⟩

/-- Witness for the amended C3 at the fully clipped frame of clipReg: the
kept entry equals the filter-then-translate description. -/
theorem merge_links_clip_amended_witness :
    [clipEntry] = ([RawLink.mk 5 5].filter (specKeepRule clipReg "2-2")).map
      (mkLinkEntry (jsLookup clipReg "2-2") "2-2" 7 9) :=
  (merge_links_clip_amended clipReg 2 "2-2" [RawLink.mk 5 5] [clipEntry] 7 9
    (by decide) (by decide)).1

theorem filter_false_of {α : Type _} (p : α → Bool) :
    ∀ l : List α, (∀ a ∈ l, p a = false) → l.filter p = [] := by
  intro l
  induction l with
  | nil => intro; rfl
  | cons a t ih =>
    intro h
    have ha := h a (List.mem_cons_self a t)
    have hstep : List.filter p (a :: t) = List.filter p t := by
      simp [List.filter_cons, ha]
    rw [hstep]
    exact ih (fun b hb => h b (List.mem_cons_of_mem a hb))

theorem filter_true_of {α : Type _} (p : α → Bool) :
    ∀ l : List α, (∀ a ∈ l, p a = true) → l.filter p = l := by
  intro l
  induction l with
  | nil => intro; rfl
  | cons a t ih =>
    intro h
    have ha := h a (List.mem_cons_self a t)
    have hstep : List.filter p (a :: t) = a :: List.filter p t := by
      simp [List.filter_cons, ha]
    rw [hstep, ih (fun b hb => h b (List.mem_cons_of_mem a hb))]

theorem filter_idem {α : Type _} (p : α → Bool) (l : List α) :
    (l.filter p).filter p = l.filter p := by
  apply filter_true_of
  intro a ha
  exact (List.mem_filter.mp ha).2

theorem processLinks_owner (reg : Registry) (fuel : Nat) (A : String)
    (raw : List RawLink) (L : List LinkEntry)
    (hL : processLinks reg fuel A raw = some L) :
    ∀ e ∈ L, e.frameId = A := by
  intro e he
  cases hres : resolveFR reg fuel A with
  | none => simp [processLinks, hres] at hL
  | some v =>
    simp only [processLinks, hres, Option.map_some', Option.some.injEq] at hL
    rw [← hL] at he
    simp only [List.mem_filter, List.mem_map] at he
    obtain ⟨⟨l, _, rfl⟩, _⟩ := he
    rfl

/-- C7: merging a second batch for the same frame in the same session first
evicts every entry of the first batch, so the merged state equals merging
the second batch alone, and the entries owned by the frame are exactly the
second batch. -/
theorem merge_links_second_batch_wins
    (reg1 reg2 : Registry) (f1 f2 : Nat) (ids : List String) (A : String)
    (raw1 raw2 : List RawLink) (s : List LinkEntry) (L1 L2 : List LinkEntry)
    (h1 : processLinks reg1 f1 A raw1 = some L1)
    (h2 : processLinks reg2 f2 A raw2 = some L2) :
    mergeLinks ids A L2 (mergeLinks ids A L1 s) = mergeLinks ids A L2 s ∧
    (mergeLinks ids A L2 (mergeLinks ids A L1 s)).filter
      (fun l => l.frameId == A) = L2 := by
  have hP1 : L1.filter (fun l => l.frameId != A && ids.contains l.frameId) = [] := by
    apply filter_false_of
    intro e he
    have hA := processLinks_owner reg1 f1 A raw1 L1 h1 e he
    simp [hA]
  have heq : mergeLinks ids A L2 (mergeLinks ids A L1 s) = mergeLinks ids A L2 s := by
    simp only [mergeLinks, List.filter_append, hP1, filter_idem, List.append_nil]
  refine ⟨heq, ?_⟩
  rw [heq]
  simp only [mergeLinks, List.filter_append]
  have hs : (s.filter (fun l => l.frameId != A && ids.contains l.frameId)).filter
      (fun l => l.frameId == A) = [] := by
    apply filter_false_of
    intro e he
    have hne := (List.mem_filter.mp he).2
    have hd : e.frameId ≠ A := by
      intro hcontra
      rw [hcontra] at hne
      simp at hne
    simp [hd]
  have hl2 : L2.filter (fun l => l.frameId == A) = L2 := by
    apply filter_true_of
    intro e he
    have hA := processLinks_owner reg2 f2 A raw2 L2 h2 e he
    simp [hA]
  rw [hs, hl2]
  simp

/-- Witness for C7 on cReg: two merges for the child frame over an arbitrary
starting state leave exactly the second call's batch. -/
theorem merge_links_second_batch_wins_witness :
    mergeLinks ["1-1", "2-2"] "2-2"
        (mkLinkEntry (jsLookup cReg "2-2") "2-2" 10 20 (RawLink.mk 2 3) :: [])
        (mergeLinks ["1-1", "2-2"] "2-2"
          (mkLinkEntry (jsLookup cReg "2-2") "2-2" 10 20 (RawLink.mk 1 2) :: []) []) =
      mergeLinks ["1-1", "2-2"] "2-2"
        (mkLinkEntry (jsLookup cReg "2-2") "2-2" 10 20 (RawLink.mk 2 3) :: []) [] :=
  (merge_links_second_batch_wins cReg cReg 2 2 ["1-1", "2-2"] "2-2"
    [RawLink.mk 1 2] [RawLink.mk 2 3] []
    (mkLinkEntry (jsLookup cReg "2-2") "2-2" 10 20 (RawLink.mk 1 2) :: [])
    (mkLinkEntry (jsLookup cReg "2-2") "2-2" 10 20 (RawLink.mk 2 3) :: [])
    (by decide) (by decide)).1

theorem jsShiftOrNull_zero (v d : Int) (h : v + d = 0) :
    jsShiftOrNull (some v) d = none := by
  simp [jsShiftOrNull, h]

theorem jsShiftOrNull_nonzero (v d : Int) (h : v + d ≠ 0) :
    jsShiftOrNull (some v) d = some (v + d) := by
  simp [jsShiftOrNull, h]

/-- C10: in translateMouseEvent each of startX, startY, endX, endY is null
when the input field is absent, and also when the input plus the frame's
absolute offset is exactly 0; otherwise it is the shifted value; the x and y
outputs are always the input position plus the offset. -/
theorem translate_mouse_null_fields (reg : Registry) (fuel : Nat) (frameId : String)
    (c : ClickInfo) (out : MouseOut) (fx fy : Int)
    (hres : resolveFR reg fuel frameId = some (fx, fy))
    (hout : translateMouseEvent reg fuel frameId c = some out) :
    (c.startX = none → out.startX = none) ∧
    (∀ v, c.startX = some v → (v + fx = 0 → out.startX = none) ∧
      (v + fx ≠ 0 → out.startX = some (v + fx))) ∧
    (c.startY = none → out.startY = none) ∧
    (∀ v, c.startY = some v → (v + fy = 0 → out.startY = none) ∧
      (v + fy ≠ 0 → out.startY = some (v + fy))) ∧
    (c.endX = none → out.endX = none) ∧
    (∀ v, c.endX = some v → (v + fx = 0 → out.endX = none) ∧
      (v + fx ≠ 0 → out.endX = some (v + fx))) ∧
    (c.endY = none → out.endY = none) ∧
    (∀ v, c.endY = some v → (v + fy = 0 → out.endY = none) ∧
      (v + fy ≠ 0 → out.endY = some (v + fy))) ∧
    out.x = c.x + fx ∧ out.y = c.y + fy := by
  simp only [translateMouseEvent, hres, Option.map_some', Option.some.injEq] at hout
  subst hout
  refine ⟨?_, ?_, ?_, ?_, ?_, ?_, ?_, ?_, rfl, rfl⟩
  · intro h; simp [h, jsShiftOrNull]
  · intro v hv
    exact ⟨fun h0 => by simp only [hv]; exact jsShiftOrNull_zero v fx h0,
           fun hne => by simp only [hv]; exact jsShiftOrNull_nonzero v fx hne⟩
  · intro h; simp [h, jsShiftOrNull]
  · intro v hv
    exact ⟨fun h0 => by simp only [hv]; exact jsShiftOrNull_zero v fy h0,
           fun hne => by simp only [hv]; exact jsShiftOrNull_nonzero v fy hne⟩
  · intro h; simp [h, jsShiftOrNull]
  · intro v hv
    exact ⟨fun h0 => by simp only [hv]; exact jsShiftOrNull_zero v fx h0,
           fun hne => by simp only [hv]; exact jsShiftOrNull_nonzero v fx hne⟩
  · intro h; simp [h, jsShiftOrNull]
  · intro v hv
    exact ⟨fun h0 => by simp only [hv]; exact jsShiftOrNull_zero v fy h0,
           fun hne => by simp only [hv]; exact jsShiftOrNull_nonzero v fy hne⟩

/-- Witness for C10 at cClick inside the child of cReg: the end x shifted by
10 lands exactly on 0 and is therefore reported as null. -/
theorem translate_mouse_null_fields_witness : cMouseOut.endX = none :=
  ((translate_mouse_null_fields cReg 2 "2-2" cClick cMouseOut 10 20
      (by decide) (by decide)).2.2.2.2.2.1 (-10) rfl).1 (by decide)

theorem filterMap_ext {α β : Type _} (f g : α → Option β) :
    ∀ l : List α, (∀ a ∈ l, f a = g a) → l.filterMap f = l.filterMap g := by
  intro l
  induction l with
  | nil => intro; rfl
  | cons a t ih =>
    intro h
    rw [List.filterMap_cons, List.filterMap_cons, h a (List.mem_cons_self a t),
      ih (fun b hb => h b (List.mem_cons_of_mem a hb))]

theorem find?_ext {α : Type _} (p q : α → Bool) :
    ∀ l : List α, (∀ a ∈ l, p a = q a) → l.find? p = l.find? q := by
  intro l
  induction l with
  | nil => intro; rfl
  | cons a t ih =>
    intro h
    rw [List.find?_cons, List.find?_cons, h a (List.mem_cons_self a t),
      ih (fun b hb => h b (List.mem_cons_of_mem a hb))]

theorem jsLookup_setRec_self (reg : Registry) (k : String) (r v : FrameRecord)
    (h : jsLookup reg k = some r) : jsLookup (setRec reg k v) k = some v := by
  induction reg with
  | nil => simp [jsLookup] at h
  | cons p t ih =>
    obtain ⟨a, b⟩ := p
    by_cases hak : a = k
    · subst hak
      simp [setRec, jsLookup, List.find?_cons]
    · have hbeq : (a == k) = false := by simp [hak]
      simp only [jsLookup, List.find?_cons, hbeq] at h
      simp only [setRec, hbeq, Bool.false_eq_true, if_false]
      simp only [jsLookup, List.find?_cons, hbeq]
      exact ih h

theorem jsLookup_setRec_other (reg : Registry) (k k2 : String) (v : FrameRecord)
    (h : k2 ≠ k) : jsLookup (setRec reg k v) k2 = jsLookup reg k2 := by
  have hbeq : (k == k2) = false := by simp; exact fun hc => h hc.symm
  induction reg with
  | nil => simp [setRec, jsLookup, List.find?_cons, hbeq]
  | cons p t ih =>
    obtain ⟨a, b⟩ := p
    by_cases hak : a = k
    · subst hak
      have hB : (a == a) = true := by simp
      simp [setRec, hB, jsLookup, List.find?_cons, hbeq]
    · have hB : (a == k) = false := by simp [hak]
      simp only [setRec, hB, Bool.false_eq_true, if_false]
      simp only [jsLookup, List.find?_cons]
      cases hB2 : a == k2
      · simpa [jsLookup] using ih
      · rfl

theorem geomView_setRec (reg : Registry) (k : String) (r v : FrameRecord)
    (h : jsLookup reg k = some r) (hgeom : v.geom = r.geom) :
    ∀ k2, (jsLookup (setRec reg k v) k2).map (fun s => s.geom) =
          (jsLookup reg k2).map (fun s => s.geom) := by
  intro k2
  by_cases hk : k2 = k
  · subst hk
    rw [jsLookup_setRec_self reg k2 r v h, h]
    simp [hgeom]
  · rw [jsLookup_setRec_other reg k k2 v hk]

theorem hitLoop_congr (reg1 reg2 : Registry)
    (hg : ∀ k, (jsLookup reg1 k).map (fun s => s.geom) =
               (jsLookup reg2 k).map (fun s => s.geom)) :
    ∀ (n : Nat) (ax ay : Int) (p1 p2 : Option FrameRecord),
      p1.map (fun s => s.geom) = p2.map (fun s => s.geom) →
      hitLoop reg1 n ax ay p1 = hitLoop reg2 n ax ay p2 := by
  intro n
  induction n with
  | zero =>
    intro ax ay p1 p2 hp
    cases p1 <;> cases p2 <;> simp_all [hitLoop]
  | succ m ih =>
    intro ax ay p1 p2 hp
    cases p1 with
    | none =>
      cases p2 with
      | none => rfl
      | some b => simp at hp
    | some a =>
      cases p2 with
      | none => simp at hp
      | some b =>
        simp only [Option.map_some', Option.some.injEq] at hp
        simp only [hitLoop]
        have hx : xOr0 a = xOr0 b := by simp [xOr0, hp]
        have hy : yOr0 a = yOr0 b := by simp [yOr0, hp]
        rw [hx, hy]
        exact ih _ _ _ _ (hg objKey)

theorem hitRecordOf_after_write (reg : Registry) (fuel : Nat) (f : String)
    (r : FrameRecord) (g : Geom) (ab : Int × Int) (w : FrameRecord)
    (hf : jsLookup reg f = some r) (hg : r.geom = some g)
    (hloop : hitLoop reg fuel g.x g.y (jsLookup reg g.parent) = some ab)
    (hw : w = { r with absX := some ab.1, absY := some ab.2 }) :
    ∀ id, hitRecordOf (setRec reg f w) fuel id = hitRecordOf reg fuel id := by
  intro id
  have hwr : w.geom = r.geom := by rw [hw]
  have hwgeom : w.geom = some g := by rw [hw]; exact hg
  have hgv := geomView_setRec reg f r w hf hwr
  by_cases hid : id = f
  · subst hid
    have hself := jsLookup_setRec_self reg id r w hf
    simp only [hitRecordOf, hself, hf]
    simp only [hwgeom, hg]
    cases hpar : g.parent == ""
    · simp only [Bool.false_eq_true, if_false]
      rw [hitLoop_congr _ _ hgv fuel g.x g.y _ _ (hgv g.parent), hloop]
      simp only [Option.map_some']
      rw [hw]
    · rfl
  · rw [hitRecordOf, hitRecordOf, jsLookup_setRec_other reg f id w hid]
    cases hli : jsLookup reg id with
    | none => rfl
    | some r2 =>
      dsimp only
      cases hg2 : r2.geom with
      | none => rfl
      | some g2 =>
        dsimp only
        cases hpar2 : g2.parent == ""
        · simp only [Bool.false_eq_true, if_false]
          rw [hitLoop_congr _ _ hgv fuel g2.x g2.y _ _ (hgv g2.parent)]
        · rfl

theorem hitScan_skip (fuel : Nat) (f : String) (rest : List String)
    (reg reg2 : Registry) (l : List FrameRecord)
    (hrec : hitRecordOf reg fuel f = none)
    (hskip : ∀ r g, jsLookup reg f = some r → r.geom = some g →
      (g.parent == "") = false → False)
    (c1 : l = rest.filterMap (hitRecordOf reg fuel))
    (c2 : ∀ id r2, id ∈ rest → hitRecordOf reg fuel id = some r2 →
      jsLookup reg2 id = some r2)
    (c3 : ∀ id, id ∉ rest → jsLookup reg2 id = jsLookup reg id)
    (c4 : ∀ id, id ∈ rest → hitRecordOf reg fuel id = none →
      jsLookup reg2 id = jsLookup reg id)
    (c5 : ∀ id r g, id ∈ rest → jsLookup reg id = some r → r.geom = some g →
      (g.parent == "") = false →
      (hitLoop reg fuel g.x g.y (jsLookup reg g.parent)).isSome = true) :
    (l = (f :: rest).filterMap (hitRecordOf reg fuel)) ∧
    (∀ id r2, id ∈ f :: rest → hitRecordOf reg fuel id = some r2 →
      jsLookup reg2 id = some r2) ∧
    (∀ id, id ∉ f :: rest → jsLookup reg2 id = jsLookup reg id) ∧
    (∀ id, id ∈ f :: rest → hitRecordOf reg fuel id = none →
      jsLookup reg2 id = jsLookup reg id) ∧
    (∀ id r g, id ∈ f :: rest → jsLookup reg id = some r → r.geom = some g →
      (g.parent == "") = false →
      (hitLoop reg fuel g.x g.y (jsLookup reg g.parent)).isSome = true) := by
  refine ⟨?_, ?_, ?_, ?_, ?_⟩
  · rw [List.filterMap_cons, hrec]
    exact c1
  · intro id r2 hmem hsome
    rcases List.mem_cons.mp hmem with h | h
    · subst h
      rw [hrec] at hsome
      cases hsome
    · exact c2 id r2 h hsome
  · intro id hmem
    exact c3 id (fun hr => hmem (List.mem_cons_of_mem f hr))
  · intro id hmem hnone
    rcases List.mem_cons.mp hmem with h | h
    · subst h
      by_cases hin : id ∈ rest
      · exact c4 id hin hnone
      · exact c3 id hin
    · exact c4 id h hnone
  · intro id r g hmem hl hg hp
    rcases List.mem_cons.mp hmem with h | h
    · subst h
      exact (hskip r g hl hg hp).elim
    · exact c5 id r g h hl hg hp

theorem hitScan_char (fuel : Nat) :
    ∀ (frames : List String) (reg reg2 : Registry) (l : List FrameRecord),
      hitScan fuel reg frames = some (reg2, l) →
      (l = frames.filterMap (hitRecordOf reg fuel)) ∧
      (∀ id r2, id ∈ frames → hitRecordOf reg fuel id = some r2 →
        jsLookup reg2 id = some r2) ∧
      (∀ id, id ∉ frames → jsLookup reg2 id = jsLookup reg id) ∧
      (∀ id, id ∈ frames → hitRecordOf reg fuel id = none →
        jsLookup reg2 id = jsLookup reg id) ∧
      (∀ id r g, id ∈ frames → jsLookup reg id = some r → r.geom = some g →
        (g.parent == "") = false →
        (hitLoop reg fuel g.x g.y (jsLookup reg g.parent)).isSome = true) := by
  intro frames
  induction frames with
  | nil =>
    intro reg reg2 l h
    simp only [hitScan, Option.some.injEq, Prod.mk.injEq] at h
    obtain ⟨h1, h2⟩ := h
    subst h1
    subst h2
    exact ⟨rfl,
      fun id r2 hmem _ => absurd hmem (List.not_mem_nil id),
      fun id _ => rfl,
      fun id hmem _ => absurd hmem (List.not_mem_nil id),
      fun id r g hmem _ _ _ => absurd hmem (List.not_mem_nil id)⟩
  | cons f rest ih =>
    intro reg reg2 l h
    cases hlf : jsLookup reg f with
    | none =>
      simp only [hitScan, hlf] at h
      have hrec : hitRecordOf reg fuel f = none := by simp [hitRecordOf, hlf]
      have hskip : ∀ r g, jsLookup reg f = some r → r.geom = some g →
          (g.parent == "") = false → False := by
        intro r g hr _ _
        rw [hlf] at hr
        exact Option.noConfusion hr
      obtain ⟨c1, c2, c3, c4, c5⟩ := ih reg reg2 l h
      exact hitScan_skip fuel f rest reg reg2 l hrec hskip c1 c2 c3 c4 c5
    | some r =>
      cases hgm : r.geom with
      | none =>
        simp only [hitScan, hlf, hgm] at h
        have hrec : hitRecordOf reg fuel f = none := by simp [hitRecordOf, hlf, hgm]
        have hskip : ∀ r2 g, jsLookup reg f = some r2 → r2.geom = some g →
            (g.parent == "") = false → False := by
          intro r2 g hr hg _
          rw [hlf] at hr
          have hr2 := Option.some.inj hr
          subst hr2
          rw [hgm] at hg
          exact Option.noConfusion hg
        obtain ⟨c1, c2, c3, c4, c5⟩ := ih reg reg2 l h
        exact hitScan_skip fuel f rest reg reg2 l hrec hskip c1 c2 c3 c4 c5
      | some g =>
        cases hpar : g.parent == "" with
        | true =>
          simp only [hitScan, hlf, hgm, hpar, if_true] at h
          have hrec : hitRecordOf reg fuel f = none := by
            simp [hitRecordOf, hlf, hgm, hpar]
          have hskip : ∀ r2 g2, jsLookup reg f = some r2 → r2.geom = some g2 →
              (g2.parent == "") = false → False := by
            intro r2 g2 hr hg hp
            rw [hlf] at hr
            have hr2 := Option.some.inj hr
            subst hr2
            rw [hgm] at hg
            have hg2 := Option.some.inj hg
            subst hg2
            rw [hpar] at hp
            exact Bool.noConfusion hp
          obtain ⟨c1, c2, c3, c4, c5⟩ := ih reg reg2 l h
          exact hitScan_skip fuel f rest reg reg2 l hrec hskip c1 c2 c3 c4 c5
        | false =>
          cases hloop : hitLoop reg fuel g.x g.y (jsLookup reg g.parent) with
          | none =>
            simp [hitScan, hlf, hgm, hpar, hloop] at h
          | some ab =>
            simp only [hitScan, hlf, hgm, hpar, Bool.false_eq_true, if_false,
              hloop] at h
            cases hrest : hitScan fuel
                (setRec reg f
                  { r with geom := some g, absX := some ab.1, absY := some ab.2 }) rest with
            | none =>
              rw [hrest] at h
              exact Option.noConfusion h
            | some rl =>
              obtain ⟨regI, lI⟩ := rl
              rw [hrest] at h
              simp only [Option.some.injEq, Prod.mk.injEq] at h
              obtain ⟨hreg, hlist⟩ := h
              subst hreg
              subst hlist
              have hrecF : hitRecordOf reg fuel f =
                  some { r with geom := some g, absX := some ab.1, absY := some ab.2 } := by
                simp [hitRecordOf, hlf, hgm, hpar, hloop]
              have hAfter := hitRecordOf_after_write reg fuel f r g ab
                { r with geom := some g, absX := some ab.1, absY := some ab.2 }
                hlf hgm hloop (by rw [hgm])
              have hOther : ∀ id2, id2 ≠ f →
                  jsLookup (setRec reg f
                    { r with geom := some g, absX := some ab.1, absY := some ab.2 }) id2
                    = jsLookup reg id2 :=
                fun id2 hne => jsLookup_setRec_other reg f id2 _ hne
              have hSelf := jsLookup_setRec_self reg f r
                { r with geom := some g, absX := some ab.1, absY := some ab.2 } hlf
              have hgv := geomView_setRec reg f r
                { r with geom := some g, absX := some ab.1, absY := some ab.2 } hlf
                (by rw [hgm])
              obtain ⟨c1, c2, c3, c4, c5⟩ := ih _ regI lI hrest
              refine ⟨?_, ?_, ?_, ?_, ?_⟩
              · rw [List.filterMap_cons, hrecF]
                congr 1
                rw [c1]
                exact filterMap_ext _ _ rest (fun a _ => hAfter a)
              · intro id r2 hmem hsome
                by_cases hid : id = f
                · subst hid
                  rw [hrecF] at hsome
                  have hs := Option.some.inj hsome
                  subst hs
                  by_cases hin : id ∈ rest
                  · exact c2 id _ hin (by rw [hAfter id]; exact hrecF)
                  · rw [c3 id hin]
                    exact hSelf
                · rcases List.mem_cons.mp hmem with hEq | hin
                  · exact absurd hEq hid
                  · exact c2 id r2 hin (by rw [hAfter id]; exact hsome)
              · intro id hmem
                have hne : id ≠ f := fun hEq => hmem (hEq ▸ List.mem_cons_self f rest)
                have hnin : id ∉ rest := fun hr => hmem (List.mem_cons_of_mem f hr)
                rw [c3 id hnin]
                exact hOther id hne
              · intro id hmem hnone
                by_cases hid : id = f
                · subst hid
                  rw [hrecF] at hnone
                  exact Option.noConfusion hnone
                · rcases List.mem_cons.mp hmem with hEq | hin
                  · exact absurd hEq hid
                  · rw [c4 id hin (by rw [hAfter id]; exact hnone)]
                    exact hOther id hid
              · intro id r2 g2 hmem hl2 hg2 hp2
                by_cases hid : id = f
                · subst hid
                  rw [hlf] at hl2
                  have h2 := Option.some.inj hl2
                  subst h2
                  rw [hgm] at hg2
                  have h3 := Option.some.inj hg2
                  subst h3
                  rw [hloop]
                  rfl
                · rcases List.mem_cons.mp hmem with hEq | hin
                  · exact absurd hEq hid
                  · have hl3 : jsLookup
                        (setRec reg f
                          { r with geom := some g, absX := some ab.1, absY := some ab.2 }) id
                          = some r2 := by
                      rw [hOther id hid]
                      exact hl2
                    have hres := c5 id r2 g2 hin hl3 hg2 hp2
                    rwa [hitLoop_congr _ _ hgv fuel g2.x g2.y _ _ (hgv g2.parent)] at hres

/-- C9: every call of findRelevantSubFrame writes the computed absX/absY
into the stored record of each enumerated frame that has a record with a
truthy parent, leaving every other field and every other record unchanged. -/
theorem hit_test_mutates_registry (fuel : Nat) (reg : Registry) (frames : List String)
    (x y : Int) (out : Registry × Option FrameRecord)
    (hout : findRelevantSubFrame reg fuel frames x y = some out) :
    (∀ id r g, id ∈ frames → jsLookup reg id = some r → r.geom = some g →
      (g.parent == "") = false →
      ∃ ab : Int × Int, hitLoop reg fuel g.x g.y (jsLookup reg g.parent) = some ab ∧
        jsLookup out.1 id = some { r with absX := some ab.1, absY := some ab.2 }) ∧
    (∀ id, id ∉ frames → jsLookup out.1 id = jsLookup reg id) ∧
    (∀ id r, id ∈ frames → jsLookup reg id = some r →
      (r.geom = none ∨ ∃ g, r.geom = some g ∧ g.parent = "") →
      jsLookup out.1 id = jsLookup reg id) := by
  cases hscan : hitScan fuel reg frames with
  | none => simp [findRelevantSubFrame, hscan] at hout
  | some rl =>
    obtain ⟨reg2, l⟩ := rl
    simp only [findRelevantSubFrame, hscan, Option.map_some', Option.some.injEq] at hout
    obtain ⟨c1, c2, c3, c4, c5⟩ := hitScan_char fuel frames reg reg2 l hscan
    subst hout
    refine ⟨?_, ?_, ?_⟩
    · intro id r g hmem hl hg hp
      have hS := c5 id r g hmem hl hg hp
      obtain ⟨ab, hab⟩ := Option.isSome_iff_exists.mp hS
      refine ⟨ab, hab, ?_⟩
      apply c2 id _ hmem
      simp [hitRecordOf, hl, hg, hp, hab]
    · intro id hnm
      exact c3 id hnm
    · intro id r hmem hl hbad
      apply c4 id hmem
      rcases hbad with hnone | ⟨g, hg, hp⟩
      · simp [hitRecordOf, hl, hnone]
      · simp [hitRecordOf, hl, hg, hp]

/-- Witness for C9 on cReg: a frame id that is not enumerated keeps exactly
its previous registry entry across the hit-test. -/
theorem hit_test_mutates_registry_witness :
    jsLookup cOut.1 "9-9" = jsLookup cReg "9-9" :=
  (hit_test_mutates_registry 3 cReg cFrames 15 25 cOut (by decide)).2.1 "9-9" (by decide)

theorem foldl_selStep_eq (x y : Int) :
    ∀ (l : List FrameRecord) (acc : Option FrameRecord),
      l.foldl (selStep x y) acc = (l.filter (candidateB x y)).foldl pickStep acc := by
  intro l
  induction l with
  | nil => intro acc; rfl
  | cons a t ih =>
    intro acc
    rw [List.foldl_cons, List.filter_cons]
    by_cases h : candidateB x y a = true
    · rw [if_pos h, List.foldl_cons,
        show selStep x y acc a = pickStep acc a from by simp [selStep, h]]
      exact ih _
    · rw [if_neg h, show selStep x y acc a = acc from by simp [selStep, h]]
      exact ih acc

theorem pickFold_some :
    ∀ (t : List FrameRecord) (a : FrameRecord),
      (widthO a).isSome = true → (∀ r ∈ t, (widthO r).isSome = true) →
      t.foldl pickStep (some a) = specNarrowestFirst (a :: t) := by
  intro t
  induction t with
  | nil =>
    intro a hwa _
    obtain ⟨wa, hwae⟩ := Option.isSome_iff_exists.mp hwa
    simp [specNarrowestFirst, List.find?_cons, List.all_cons, jsLeO, hwae]
  | cons b t2 ih =>
    intro a hwa hall
    obtain ⟨wa, hwae⟩ := Option.isSome_iff_exists.mp hwa
    have hwbS := hall b (List.mem_cons_self b t2)
    obtain ⟨wb, hwbe⟩ := Option.isSome_iff_exists.mp hwbS
    have hall2 : ∀ r ∈ t2, (widthO r).isSome = true :=
      fun r hr => hall r (List.mem_cons_of_mem b hr)
    rw [List.foldl_cons]
    by_cases hgt : wb < wa
    · have hstep : pickStep (some a) b = some b := by
        simp [pickStep, jsGtO, hwae, hwbe, hgt]
      rw [hstep, ih b hwbS hall2]
      rw [specNarrowestFirst, specNarrowestFirst]
      have hPa : ((a :: b :: t2).all (fun gg => jsLeO (widthO a) (widthO gg))) = false := by
        cases hb : (a :: b :: t2).all (fun gg => jsLeO (widthO a) (widthO gg)) with
        | false => rfl
        | true =>
          have hab := List.all_eq_true.mp hb b
            (List.mem_cons_of_mem a (List.mem_cons_self b t2))
          simp [jsLeO, hwae, hwbe] at hab
          omega
      conv_rhs => rw [List.find?_cons]
      simp only [hPa]
      apply find?_ext
      intro r hr
      obtain ⟨wr, hwre⟩ := Option.isSome_iff_exists.mp (hall r hr)
      conv_rhs => rw [List.all_cons]
      cases hPr : (b :: t2).all (fun gg => jsLeO (widthO r) (widthO gg)) with
      | false => rw [Bool.and_false]
      | true =>
        have hrb := List.all_eq_true.mp hPr b (List.mem_cons_self b t2)
        simp only [jsLeO, hwre, hwbe, decide_eq_true_eq] at hrb
        have hra : jsLeO (widthO r) (widthO a) = true := by
          simp only [jsLeO, hwre, hwae, decide_eq_true_eq]
          omega
        rw [hra, Bool.true_and]
    · have hle : wa ≤ wb := by omega
      have hstep : pickStep (some a) b = some a := by
        simp [pickStep, jsGtO, hwae, hwbe, hgt]
      rw [hstep, ih a hwa hall2]
      rw [specNarrowestFirst, specNarrowestFirst]
      have hjaa : jsLeO (widthO a) (widthO a) = true := by
        simp [jsLeO, hwae]
      have hjab : jsLeO (widthO a) (widthO b) = true := by
        simp only [jsLeO, hwae, hwbe, decide_eq_true_eq]
        omega
      cases hPa : t2.all (fun gg => jsLeO (widthO a) (widthO gg)) with
      | true =>
        have h1 : ((a :: t2).all (fun gg => jsLeO (widthO a) (widthO gg))) = true := by
          rw [List.all_cons, hjaa, hPa]
          rfl
        have h2 : ((a :: b :: t2).all (fun gg => jsLeO (widthO a) (widthO gg))) = true := by
          rw [List.all_cons, List.all_cons, hjaa, hjab, hPa]
          rfl
        rw [List.find?_cons, List.find?_cons]
        simp only [h1, h2]
      | false =>
        have h1 : ((a :: t2).all (fun gg => jsLeO (widthO a) (widthO gg))) = false := by
          rw [List.all_cons, hPa, Bool.and_false]
        have h2 : ((a :: b :: t2).all (fun gg => jsLeO (widthO a) (widthO gg))) = false := by
          rw [List.all_cons, List.all_cons, hPa, Bool.and_false, Bool.and_false]
        have hb2 : ((a :: b :: t2).all (fun gg => jsLeO (widthO b) (widthO gg))) = false := by
          cases hball : (a :: b :: t2).all (fun gg => jsLeO (widthO b) (widthO gg)) with
          | false => rfl
          | true =>
            exfalso
            have hba := List.all_eq_true.mp hball a (List.mem_cons_self a (b :: t2))
            simp only [jsLeO, hwbe, hwae, decide_eq_true_eq] at hba
            have hcontra : t2.all (fun gg => jsLeO (widthO a) (widthO gg)) = true := by
              apply List.all_eq_true.mpr
              intro gg hgg
              have hggb := List.all_eq_true.mp hball gg
                (List.mem_cons_of_mem a (List.mem_cons_of_mem b hgg))
              obtain ⟨wg, hwge⟩ := Option.isSome_iff_exists.mp (hall2 gg hgg)
              simp only [jsLeO, hwbe, hwge, decide_eq_true_eq] at hggb
              simp only [jsLeO, hwae, hwge, decide_eq_true_eq]
              omega
            rw [hPa] at hcontra
            exact Bool.noConfusion hcontra
        conv_lhs => rw [List.find?_cons]
        conv_rhs => rw [List.find?_cons]
        simp only [h1, h2]
        conv_rhs => rw [List.find?_cons]
        simp only [hb2]
        apply find?_ext
        intro r hr
        obtain ⟨wr, hwre⟩ := Option.isSome_iff_exists.mp (hall2 r hr)
        rw [List.all_cons, List.all_cons, List.all_cons]
        cases hrt : t2.all (fun gg => jsLeO (widthO r) (widthO gg)) with
        | false => simp [hrt]
        | true =>
          cases hra : jsLeO (widthO r) (widthO a) with
          | false => rw [Bool.false_and, Bool.false_and]
          | true =>
            have hrla : wr ≤ wa := by
              simpa [jsLeO, hwre, hwae] using hra
            have hrb : jsLeO (widthO r) (widthO b) = true := by
              simp only [jsLeO, hwre, hwbe, decide_eq_true_eq]
              omega
            simp [hrb]

theorem pickFold_none :
    ∀ (l : List FrameRecord), (∀ r ∈ l, (widthO r).isSome = true) →
      l.foldl pickStep none = specNarrowestFirst l := by
  intro l hl
  cases l with
  | nil => rfl
  | cons a t =>
    rw [List.foldl_cons, show pickStep none a = some a from rfl]
    exact pickFold_some t a (hl a (List.mem_cons_self a t))
      (fun r hr => hl r (List.mem_cons_of_mem a hr))

theorem hitRecordOf_width_isSome (reg : Registry) (fuel : Nat) (f : String)
    (r2 : FrameRecord) (h : hitRecordOf reg fuel f = some r2) :
    (widthO r2).isSome = true := by
  cases hlf : jsLookup reg f with
  | none => simp [hitRecordOf, hlf] at h
  | some r =>
    cases hg : r.geom with
    | none => simp [hitRecordOf, hlf, hg] at h
    | some g =>
      cases hpar : g.parent == "" with
      | true => simp [hitRecordOf, hlf, hg, hpar] at h
      | false =>
        cases hloop : hitLoop reg fuel g.x g.y (jsLookup reg g.parent) with
        | none => simp [hitRecordOf, hlf, hg, hpar, hloop] at h
        | some ab =>
          simp only [hitRecordOf, hlf, hg, hpar, Bool.false_eq_true, if_false, hloop,
            Option.map_some', Option.some.injEq] at h
          subst h
          simp [widthO]

/-- C8: the frame findRelevantSubFrame selects is the first candidate, in
enumeration order, whose width is less than or equal to the width of every
candidate strictly containing the query point; in particular the selection
is a function of the registry state, the frame enumeration and the point. -/
theorem hit_test_narrowest_first (reg : Registry) (fuel : Nat) (frames : List String)
    (x y : Int) (out : Registry × Option FrameRecord)
    (hout : findRelevantSubFrame reg fuel frames x y = some out) :
    out.2 = specNarrowestFirst (hitCandidates reg fuel frames x y) := by
  cases hscan : hitScan fuel reg frames with
  | none => simp [findRelevantSubFrame, hscan] at hout
  | some rl =>
    obtain ⟨reg2, l⟩ := rl
    simp only [findRelevantSubFrame, hscan, Option.map_some', Option.some.injEq] at hout
    subst hout
    have hl := (hitScan_char fuel frames reg reg2 l hscan).1
    have hsome : ∀ r ∈ l, (widthO r).isSome = true := by
      intro r hr
      rw [hl] at hr
      obtain ⟨fid, _, hfrec⟩ := List.mem_filterMap.mp hr
      exact hitRecordOf_width_isSome reg fuel fid r hfrec
    show l.foldl (selStep x y) none = _
    rw [foldl_selStep_eq x y l none,
      pickFold_none _ (fun r hr => hsome r (List.mem_filter.mp hr).1)]
    rw [hitCandidates, ← hl]

/-- Witness for C8 on cReg at point (15, 25): the chosen frame is the first
narrowest candidate. -/
theorem hit_test_narrowest_first_witness :
    cOut.2 = specNarrowestFirst (hitCandidates cReg 3 cFrames 15 25) :=
  hit_test_narrowest_first cReg 3 cFrames 15 25 cOut (by decide)

end Vieb
